import Mathlib

/-!
Shallow embedding of the `tiketetaketitak` engine core (`src/state.rs`) and its
domain layer (`src/single.rs`, `src/pokemon.rs`, `src/ability.rs`, `src/effect.rs`).

Modelling conventions:
* Rust `Node<S>` is generic over the state type `S`; the associated player type
  `S::Player` is made an explicit second parameter `P`.
* `Vec<Possibility<S>>` / `Vec<Choice<S>>` are embedded as the cons-lists
  `PossList` / `ChoiceList`, with the `Possibility` / `Choice` struct fields
  inlined into the cons cell (field order follows the Rust structs).
* `f64` weights are only stored and moved around by the embedded code, never
  computed with, so they are modelled as `Rat`.
* Panics are modelled with `Except String`, carrying the panic message.
-/

mutual

/-- `Node` from `state.rs`: a state snapshot paired with a `Branches` value. -/
inductive Node (S P : Type) : Type where
  | mk (state : S) (branches : Branches S P)

/-- `Branches` from `state.rs`; the payloads of the `Chance` and `Decision`
struct variants (`name`, `possibilities` / `name`, `player`, `choices`) are
inlined. -/
inductive Branches (S P : Type) : Type where
  | chance (name : String) (possibilities : PossList S P)
  | decision (name : String) (player : P) (choices : ChoiceList S P)
  | pending
  | «end»

/-- `Vec<Possibility<S>>`, with the `Possibility` struct
(`name`, `continuation`, `weight`) inlined into the cons cell. -/
inductive PossList (S P : Type) : Type where
  | nil
  | cons (name : String) (continuation : S → Node S P) (weight : Rat)
      (tail : PossList S P)

/-- `Vec<Choice<S>>`, with the `Choice` struct (`name`, `continuation`)
inlined into the cons cell. -/
inductive ChoiceList (S P : Type) : Type where
  | nil
  | cons (name : String) (continuation : S → Node S P) (tail : ChoiceList S P)

end

/-- Field accessor `self.state`. -/
def Node.state {S P : Type} : Node S P → S
  | .mk s _ => s

/-- Field accessor `self.branches`. -/
def Node.branches {S P : Type} : Node S P → Branches S P
  | .mk _ b => b

/-- `Node::end(state)` from `state.rs`. -/
def Node.«end» {S P : Type} (state : S) : Node S P :=
  .mk state .«end»

/-- `Node::pending(state)` from `state.rs`. -/
def Node.pending {S P : Type} (state : S) : Node S P :=
  .mk state .pending

mutual

/-- `Node::then` from `state.rs`: append step `f` after the computation
represented by `self`, recursing into every open branch. -/
def Node.«then» {S P : Type} : Node S P → (S → Node S P) → Node S P
  | .mk state (.chance name possibilities), f =>
      .mk state (.chance name (PossList.thenAll possibilities f))
  | .mk state (.decision name player choices), f =>
      .mk state (.decision name player (ChoiceList.thenAll choices f))
  | .mk state .pending, f => f state
  | .mk state .«end», _ => .mk state .«end»

/-- The `possibilities.into_iter().map(...)` loop inside `Node::then`:
every continuation `cont` becomes `move |s| cont(s).then(f)`; name and
weight are carried over unchanged. -/
def PossList.thenAll {S P : Type} : PossList S P → (S → Node S P) → PossList S P
  | .nil, _ => .nil
  | .cons name continuation weight tail, f =>
      .cons name (fun s => Node.«then» (continuation s) f) weight
        (PossList.thenAll tail f)

/-- The `choices.into_iter().map(...)` loop inside `Node::then`:
every continuation `cont` becomes `move |s| cont(s).then(f)`; the name is
carried over unchanged. -/
def ChoiceList.thenAll {S P : Type} : ChoiceList S P → (S → Node S P) → ChoiceList S P
  | .nil, _ => .nil
  | .cons name continuation tail, f =>
      .cons name (fun s => Node.«then» (continuation s) f)
        (ChoiceList.thenAll tail f)

end

/-- `StateBase::fold` from `state.rs`: start from `Node::pending(self)` and,
for each item in order, compose `move |state| f(state, item)` via `then`. -/
def fold {S I P : Type} (s : S) (items : List I) (f : S → I → Node S P) : Node S P :=
  items.foldl (fun node item => Node.«then» node (fun state => f state item))
    (Node.pending s)

/-- Labels of a choice list, in order. -/
def ChoiceList.names {S P : Type} : ChoiceList S P → List String
  | .nil => []
  | .cons name _ tail => name :: ChoiceList.names tail

/-- Continuations of a choice list, in order. -/
def ChoiceList.conts {S P : Type} : ChoiceList S P → List (S → Node S P)
  | .nil => []
  | .cons _ continuation tail => continuation :: ChoiceList.conts tail

/-- Labels of a possibility list, in order. -/
def PossList.names {S P : Type} : PossList S P → List String
  | .nil => []
  | .cons name _ _ tail => name :: PossList.names tail

/-- Weights of a possibility list, in order. -/
def PossList.weights {S P : Type} : PossList S P → List Rat
  | .nil => []
  | .cons _ _ weight tail => weight :: PossList.weights tail

/-- Continuations of a possibility list, in order. -/
def PossList.conts {S P : Type} : PossList S P → List (S → Node S P)
  | .nil => []
  | .cons _ continuation _ tail => continuation :: PossList.conts tail

/-- Whether a node is in the `Decision` branch. -/
def Node.isDecision {S P : Type} : Node S P → Bool
  | .mk _ (.decision _ _ _) => true
  | _ => false

/-- Whether a node is in the `Pending` branch. -/
def Node.isPending {S P : Type} : Node S P → Bool
  | .mk _ .pending => true
  | _ => false

/-- Whether a node is in the `End` branch. -/
def Node.isEnd {S P : Type} : Node S P → Bool
  | .mk _ .«end» => true
  | _ => false

/-- The deciding player of a `Decision` node, if any. -/
def Node.player? {S P : Type} : Node S P → Option P
  | .mk _ (.decision _ player _) => some player
  | _ => none

/-- The name of a `Decision` or `Chance` node, if any. -/
def Node.name? {S P : Type} : Node S P → Option String
  | .mk _ (.decision name _ _) => some name
  | .mk _ (.chance name _) => some name
  | _ => none

/-- Choice labels of a `Decision` node (empty otherwise). -/
def Node.choiceNames {S P : Type} : Node S P → List String
  | .mk _ (.decision _ _ choices) => choices.names
  | _ => []

/-- Choice continuations of a `Decision` node (empty otherwise). -/
def Node.choiceConts {S P : Type} : Node S P → List (S → Node S P)
  | .mk _ (.decision _ _ choices) => choices.conts
  | _ => []

/-- Possibility labels of a `Chance` node (empty otherwise). -/
def Node.possNames {S P : Type} : Node S P → List String
  | .mk _ (.chance _ possibilities) => possibilities.names
  | _ => []

/-- Possibility weights of a `Chance` node (empty otherwise). -/
def Node.possWeights {S P : Type} : Node S P → List Rat
  | .mk _ (.chance _ possibilities) => possibilities.weights
  | _ => []

/-- Possibility continuations of a `Chance` node (empty otherwise). -/
def Node.possConts {S P : Type} : Node S P → List (S → Node S P)
  | .mk _ (.chance _ possibilities) => possibilities.conts
  | _ => []

/-- The driver's resolution act on a `Decision` node: invoke the `i`-th
choice's continuation with state `s` (none if out of range or not a
decision). -/
def Node.resolveChoice {S P : Type} (n : Node S P) (i : Nat) (s : S) :
    Option (Node S P) :=
  (n.choiceConts.get? i).map (fun c => c s)

mutual

theorem Node.then_assoc {S P : Type} :
    ∀ (a : Node S P) (f g : S → Node S P),
      Node.«then» (Node.«then» a f) g
        = Node.«then» a (fun s => Node.«then» (f s) g)
  | .mk state (.chance name possibilities), f, g => by
      simp only [Node.«then»]
      rw [PossList.poss_thenAll_assoc possibilities f g]
  | .mk state (.decision name player choices), f, g => by
      simp only [Node.«then»]
      rw [ChoiceList.choice_thenAll_assoc choices f g]
  | .mk state .pending, f, g => rfl
  | .mk state .«end», f, g => rfl

theorem PossList.poss_thenAll_assoc {S P : Type} :
    ∀ (ps : PossList S P) (f g : S → Node S P),
      PossList.thenAll (PossList.thenAll ps f) g
        = PossList.thenAll ps (fun s => Node.«then» (f s) g)
  | .nil, f, g => rfl
  | .cons name continuation weight tail, f, g => by
      have h1 : (fun s => Node.«then» (Node.«then» (continuation s) f) g)
          = fun s => Node.«then» (continuation s) (fun s => Node.«then» (f s) g) :=
        funext (fun s => Node.then_assoc (continuation s) f g)
      simp only [PossList.thenAll, h1, PossList.poss_thenAll_assoc tail f g]

theorem ChoiceList.choice_thenAll_assoc {S P : Type} :
    ∀ (cs : ChoiceList S P) (f g : S → Node S P),
      ChoiceList.thenAll (ChoiceList.thenAll cs f) g
        = ChoiceList.thenAll cs (fun s => Node.«then» (f s) g)
  | .nil, f, g => rfl
  | .cons name continuation tail, f, g => by
      have h1 : (fun s => Node.«then» (Node.«then» (continuation s) f) g)
          = fun s => Node.«then» (continuation s) (fun s => Node.«then» (f s) g) :=
        funext (fun s => Node.then_assoc (continuation s) f g)
      simp only [ChoiceList.thenAll, h1, ChoiceList.choice_thenAll_assoc tail f g]

end

/-- `DecisionBuilder<S, T>` from `state.rs` (with the player type `P`
explicit). -/
structure DecisionBuilder (S P T : Type) where
  player : P
  name : String
  choices : List (String × T)

/-- `DecisionBuilder::new(name, player)`: starts with no choices. -/
def DecisionBuilder.new {S P T : Type} (name : String) (player : P) :
    DecisionBuilder S P T :=
  { name := name, player := player, choices := [] }

/-- `DecisionBuilder::named_choice`: push one labeled payload. -/
def DecisionBuilder.named_choice {S P T : Type} (b : DecisionBuilder S P T)
    (name : String) (choice : T) : DecisionBuilder S P T :=
  { b with choices := b.choices ++ [(name, choice)] }

/-- `DecisionBuilder::named_choices`: extend with many labeled payloads. -/
def DecisionBuilder.named_choices {S P T : Type} (b : DecisionBuilder S P T)
    (choices : List (String × T)) : DecisionBuilder S P T :=
  { b with choices := b.choices ++ choices }

/-- The `choices.into_iter().map(...)` body of `DecisionBuilder::build`:
each `(name, c)` becomes a `Choice` with continuation `move |s| f(s, c)`. -/
def ChoiceList.ofChoices {S P T : Type} :
    List (String × T) → (S → T → Node S P) → ChoiceList S P
  | [], _ => .nil
  | (name, c) :: rest, f => .cons name (fun s => f s c) (ChoiceList.ofChoices rest f)

/-- `DecisionBuilder::build(state, f)` from `state.rs`: materialize the
Decision node.  The source performs no emptiness check. -/
def DecisionBuilder.build {S P T : Type} (b : DecisionBuilder S P T) (state : S)
    (f : S → T → Node S P) : Node S P :=
  .mk state (.decision b.name b.player (ChoiceList.ofChoices b.choices f))

/-- `DecisionBuilder::choice`: label is the payload's textual rendering
(the `ToString` bound is passed as an explicit rendering function). -/
def DecisionBuilder.choice {S P T : Type} (b : DecisionBuilder S P T)
    (toStr : T → String) (c : T) : DecisionBuilder S P T :=
  b.named_choice (toStr c) c

/-- `DecisionBuilder::choices`: as `choice`, for many payloads. -/
def DecisionBuilder.choices' {S P T : Type} (b : DecisionBuilder S P T)
    (toStr : T → String) (cs : List T) : DecisionBuilder S P T :=
  b.named_choices (cs.map (fun t => (toStr t, t)))

/-- `DecisionBuilder::indexed_choices` from `state.rs` (on
`DecisionBuilder<S, usize>`): payload = 0-based position, label = the item's
textual rendering, mirroring
`choices.into_iter().map(to_string).enumerate().map(|(i, n)| (n, i))`. -/
def DecisionBuilder.indexed_choices {S P A : Type} (b : DecisionBuilder S P Nat)
    (items : List A) (toStr : A → String) : DecisionBuilder S P Nat :=
  b.named_choices (((items.map toStr).enum).map (fun p => (p.2, p.1)))

/-- `DecisionBuilder::yn_choices` from `state.rs` (on
`DecisionBuilder<S, bool>`). -/
def DecisionBuilder.yn_choices {S P : Type} (b : DecisionBuilder S P Bool) :
    DecisionBuilder S P Bool :=
  b.named_choices [("Yes", true), ("No", false)]

/-- `ChanceBuilder<T>` from `state.rs`. -/
structure ChanceBuilder (T : Type) where
  name : String
  possibilities : List (String × Rat × T)

/-- `ChanceBuilder::named_possibility`: push one labeled, weighted payload. -/
def ChanceBuilder.named_possibility {T : Type} (b : ChanceBuilder T)
    (name : String) (weight : Rat) (possibility : T) : ChanceBuilder T :=
  { b with possibilities := b.possibilities ++ [(name, weight, possibility)] }

/-- `ChanceBuilder::named_possibilities`: extend with many labeled, weighted
payloads. -/
def ChanceBuilder.named_possibilities {T : Type} (b : ChanceBuilder T)
    (choices : List (String × Rat × T)) : ChanceBuilder T :=
  { b with possibilities := b.possibilities ++ choices }

/-- The `possibilities.into_iter().map(...)` body of `ChanceBuilder::build`:
each `(name, weight, p)` becomes a `Possibility` with continuation
`move |s| f(s, p)`. -/
def PossList.ofPossibilities {S P T : Type} :
    List (String × Rat × T) → (S → T → Node S P) → PossList S P
  | [], _ => .nil
  | (name, w, p) :: rest, f =>
      .cons name (fun s => f s p) w (PossList.ofPossibilities rest f)

/-- `ChanceBuilder::build(state, f)` from `state.rs`: materialize the Chance
node.  The source performs no emptiness check. -/
def ChanceBuilder.build {S P T : Type} (b : ChanceBuilder T) (state : S)
    (f : S → T → Node S P) : Node S P :=
  .mk state (.chance b.name (PossList.ofPossibilities b.possibilities f))

/-- `ChanceBuilder::possibilities`: labels are the payloads' textual
renderings. -/
def ChanceBuilder.possibilities' {T : Type} (b : ChanceBuilder T)
    (toStr : T → String) (ps : List (Rat × T)) : ChanceBuilder T :=
  b.named_possibilities (ps.map (fun p => (toStr p.2, p.1, p.2)))

/-- `<Node<S> as Try>::into_result` from `state.rs`: an `End` node is the
`Err` case, every `Chance`/`Decision`/`Pending` node is the `Ok` case. -/
def Node.into_result {S P : Type} (n : Node S P) :
    Except (Node S P) (Node S P) :=
  match n.branches with
  | .«end» => .error n
  | .chance _ _ => .ok n
  | .decision _ _ _ => .ok n
  | .pending => .ok n

/-- `<Node<S> as Try>::from_error` from `state.rs`.  The Rust body returns
`v` when `v` is `Chance`/`Decision`/`Pending` and panics with
`"Invalid Ok: {:?}"` when `v` is `End`; the panic is modelled as
`Except.error` carrying the static part of the message. -/
def Node.from_error {S P : Type} (v : Node S P) : Except String (Node S P) :=
  match v.branches with
  | .chance _ _ => .ok v
  | .decision _ _ _ => .ok v
  | .pending => .ok v
  | .«end» => .error ("Invalid Ok")

/-- `<Node<S> as Try>::from_ok` from `state.rs`.  The Rust body panics with
`"Invalid Error: {:?}"` when `v` is `Chance`/`Decision`/`Pending` and returns
`v` when it is `End`. -/
def Node.from_ok {S P : Type} (v : Node S P) : Except String (Node S P) :=
  match v.branches with
  | .chance _ _ => .error ("Invalid Error")
  | .decision _ _ _ => .error ("Invalid Error")
  | .pending => .error ("Invalid Error")
  | .«end» => .ok v

/-- Outcome of applying the question-mark operator to a node. -/
inductive QuestionResult (S P : Type) : Type where
  | cont (n : Node S P)
  | ret (n : Node S P)
  | panicked (msg : String)

/-- The desugaring of `n?` under the `Try` impl on `Node`:
`match Try::into_result(n) with Ok(v) => v (continue), Err(e) => return
Try::from_error(e)` — where `from_error` may itself panic. -/
def Node.question {S P : Type} (n : Node S P) : QuestionResult S P :=
  match n.into_result with
  | .ok v => .cont v
  | .error e =>
      match Node.from_error e with
      | .ok v => .ret v
      | .error m => .panicked m

/-- `Ability` from `ability.rs`: an empty enum. -/
inductive Ability : Type

/-- `Effect` from `effect.rs`: an empty enum. -/
inductive Effect : Type

/-- The defaulted `EventHandler::on_etb` hook, which
`impl EventHandler<S> for Ability` inherits unchanged in `ability.rs`:
`Node::pending(state)`. -/
def Ability.on_etb {S P : Type} (_a : Ability) (state : S) : Node S P :=
  Node.pending state

/-- The defaulted `EventHandler::on_etb` hook, which
`impl EventHandler<S> for Effect` inherits unchanged in `effect.rs`. -/
def Effect.on_etb {S P : Type} (_e : Effect) (state : S) : Node S P :=
  Node.pending state

/-- `Stats` from `pokemon.rs` (`u32` fields as `Nat`; no claim performs
arithmetic on them). -/
structure Stats : Type where
  hp : Nat
  attack : Nat
  defense : Nat
  special_attack : Nat
  special_defense : Nat
  speed : Nat

/-- `Gender` from `pokemon.rs`. -/
inductive Gender : Type where
  | None
  | Male
  | Female

/-- `AllowedGenders` from `pokemon.rs`. -/
inductive AllowedGenders : Type where
  | MaleOrFemale
  | MaleOnly
  | FemaleOnly
  | NoGender

/-- `PokeType` from `pokemon.rs`. -/
inductive PokeType : Type where
  | Normal | Fire | Water | Electric | Grass | Ice | Fighting | Poison
  | Ground | Flying | Psychic | Bug | Rock | Ghost | Dragon | Dark
  | Steel | Fairy

/-- `TypeEffectiveness` from `pokemon.rs`. -/
inductive TypeEffectiveness : Type where
  | NoEffect
  | NotVeryEffective
  | Regular
  | SuperEffective

mutual

/-- `PokemonSpecies` from `pokemon.rs` (`Rc` sharing elided; the values are
plain trees). -/
inductive PokemonSpecies : Type where
  | mk (national_dex_no : Nat) (name : String) (forms : List PokemonForm)

/-- `PokemonForm` from `pokemon.rs`. -/
inductive PokemonForm : Type where
  | mk (species : PokemonSpecies) (name : Option String)
      (types : List PokeType) (genders : AllowedGenders) (base_stats : Stats)

end

/-- Field accessor for `PokemonSpecies::name`. -/
def PokemonSpecies.name : PokemonSpecies → String
  | .mk _ name _ => name

/-- `Display for PokemonForm` from `pokemon.rs`. -/
def PokemonForm.toString : PokemonForm → String
  | .mk species (some n) _ _ _ => species.name ++ " - " ++ n
  | .mk species none _ _ _ => species.name

/-- Modelled from the spec: `src/pokemove.rs` is not among the sources and the
move data model is explicitly out of the specified scope (spec §1: "the
concrete data model of a game (species, types, ..., move/ability/item
effects)").  The embedded code only stores moves and renders them textually
(`m.to_string()` in `single.rs`), so a move is modelled as its rendered
name. -/
def PokeMove := String

/-- The textual rendering of a (spec-modelled) move. -/
def PokeMove.toString (m : PokeMove) : String := m

/-- Modelled from the spec: `src/item.rs` is not among the sources and the
item data model is out of the specified scope; items are only stored, never
inspected, by the embedded code. -/
def Item := String

/-- `Pokemon` from `pokemon.rs` (field order as in the source;
`ArrayVec<[PokeMove; 4]>` as a list — the capacity bound plays no role in any
claim). -/
structure Pokemon : Type where
  form : PokemonForm
  nickname : Option String
  gender : Gender
  moves : List PokeMove
  ev : Stats
  iv : Stats
  ability : Ability
  item : Option Item

/-- `Display for Pokemon` from `pokemon.rs`. -/
def Pokemon.toString (p : Pokemon) : String :=
  match p.nickname with
  | some n => n ++ " (" ++ p.form.toString ++ ")"
  | none => p.form.toString

/-- `single.rs` (line 127) reads a `current_hp` field that `pokemon.rs` does
not declare (the crate does not compile as given).  Since `Pokemon` is
uninhabited — its `ability` field has the empty type `Ability` — the accessor
is definable by elimination and its value can never matter. -/
def Pokemon.current_hp (p : Pokemon) : Nat := nomatch p.ability

/-- `Team` from `pokemon.rs`: `ArrayVec<[Pokemon; 6]>` as a list — the
capacity bound plays no role in any claim. -/
abbrev Team := List Pokemon

namespace Single

/-- `Player` from `single.rs`. -/
inductive Player : Type where
  | Player1
  | Player2

/-- The `strum_macros::Display` derive on `Player`: the variant name. -/
def Player.toString : Player → String
  | .Player1 => "Player1"
  | .Player2 => "Player2"

/-- `PlayerBase::values` for `Player` from `single.rs`. -/
def Player.values : List Player := [.Player1, .Player2]

/-- `Action` from `single.rs`. -/
inductive Action : Type where
  | UsePokeMove (idx : Nat)
  | SwitchPokemon (idx : Nat)

/-- `PlayerState` from `single.rs`. -/
structure PlayerState : Type where
  active_pokemon_idx : Option Nat
  turn_action : Option Action
  team : Team

/-- `State` from `single.rs`. -/
structure State : Type where
  player_1 : PlayerState
  player_2 : PlayerState

/-- `StateBase::player` for `State` from `single.rs`. -/
def State.player (s : State) : Player → PlayerState
  | .Player1 => s.player_1
  | .Player2 => s.player_2

/-- `StateBase::player_mut` for `State` from `single.rs`, modelled as a
functional update. -/
def State.setPlayer (s : State) : Player → PlayerState → State
  | .Player1, ps => { s with player_1 := ps }
  | .Player2, ps => { s with player_2 := ps }

/-- `PlayerState::active_pokemon` from `single.rs`:
`self.active_pokemon_idx.map(|idx| &self.team[idx])`.  The Rust indexing
panics when the index is out of bounds; the panic is modelled as
`Except.error`. -/
def PlayerState.active_pokemon (ps : PlayerState) :
    Except String (Option Pokemon) :=
  match ps.active_pokemon_idx with
  | none => .ok none
  | some idx =>
      match ps.team.get? idx with
      | some pk => .ok (some pk)
      | none => .error ("index out of bounds")

/-- `State::pokemon_etb` from `single.rs`:
`self.player(player).active_pokemon().unwrap().ability.clone().on_etb(self)`.
`Option::unwrap` on `None` panics with the standard library's fixed message,
modelled as `Except.error`; note the message does not mention the player. -/
def State.pokemon_etb (s : State) (player : Player) :
    Except String (Node State Player) :=
  match (s.player player).active_pokemon with
  | .error m => .error m
  | .ok none => .error ("called `Option::unwrap()` on a `None` value")
  | .ok (some pk) => .ok (pk.ability.on_etb s)

/-- The per-player step closure inside `State::choose_actions` from
`single.rs`.  A missing `active_pokemon_idx` hits
`unwrap_or_else(|| panic!("No active pokemon for ... when choosing actions"))`
with the player's rendering interpolated; panics are modelled as
`Except.error` carrying the message. -/
def State.choose_action_step (state : State) (player : Player) :
    Except String (Node State Player) :=
  let player_state := state.player player
  match player_state.active_pokemon_idx with
  | none =>
      .error ("No active pokemon for " ++ player.toString
        ++ " when choosing actions")
  | some active_pokemon_idx =>
      match player_state.team.get? active_pokemon_idx with
      | none => .error ("index out of bounds")
      | some pk =>
          let move_choices := pk.moves.enum.map
            (fun p => (PokeMove.toString p.2, Action.UsePokeMove p.1))
          let switch_choices := ((player_state.team.enum).filter
              (fun p => decide (p.1 ≠ active_pokemon_idx)
                && decide (0 < p.2.current_hp))).map
            (fun p => (p.2.toString, Action.SwitchPokemon p.1))
          .ok (((DecisionBuilder.new ("Choose your action") player).named_choices
              (move_choices ++ switch_choices)).build state
            (fun state choice =>
              Node.pending (state.setPlayer player
                { state.player player with turn_action := some choice })))

end Single

/-- A two-choice Decision step whose continuations immediately end the
simulation; its `fold` refutes the unconditional reading of the
order-preservation law. -/
def fTest : Nat → Nat → Node Nat Nat :=
  fun s i => Node.mk s (Branches.decision ("d") i
    (ChoiceList.cons ("a") (fun t => Node.«end» t)
      (ChoiceList.cons ("b") (fun t => Node.«end» t) ChoiceList.nil)))

/-- A two-choice Decision step whose continuations return `Node::pending`,
as the action- and starter-selection steps of `single.rs` do. -/
def fPend : Nat → Nat → Node Nat Nat :=
  fun s i => Node.mk s (Branches.decision ("d") i
    (ChoiceList.cons ("a") (fun t => Node.pending t)
      (ChoiceList.cons ("b") (fun t => Node.pending t) ChoiceList.nil)))

/-- The `State` that `State::start` in `single.rs` builds before composing any
step: both `active_pokemon_idx` and `turn_action` unset, teams as given (and
every `Team` is empty, `Pokemon` being uninhabited). -/
def startState : Single.State :=
  { player_1 := { active_pokemon_idx := none, turn_action := none, team := [] }
    player_2 := { active_pokemon_idx := none, turn_action := none, team := [] } }

theorem ChoiceList.choiceNames_thenAll {S P : Type} :
    ∀ (cs : ChoiceList S P) (f : S → Node S P),
      (ChoiceList.thenAll cs f).names = cs.names
  | .nil, _ => rfl
  | .cons name continuation tail, f => by
      simp [ChoiceList.thenAll, ChoiceList.names,
        ChoiceList.choiceNames_thenAll tail f]

theorem ChoiceList.choiceConts_thenAll {S P : Type} :
    ∀ (cs : ChoiceList S P) (f : S → Node S P),
      (ChoiceList.thenAll cs f).conts
        = cs.conts.map (fun c => fun s => Node.«then» (c s) f)
  | .nil, _ => rfl
  | .cons name continuation tail, f => by
      simp [ChoiceList.thenAll, ChoiceList.conts,
        ChoiceList.choiceConts_thenAll tail f]

theorem PossList.possNames_thenAll {S P : Type} :
    ∀ (ps : PossList S P) (f : S → Node S P),
      (PossList.thenAll ps f).names = ps.names
  | .nil, _ => rfl
  | .cons name continuation weight tail, f => by
      simp [PossList.thenAll, PossList.names, PossList.possNames_thenAll tail f]

theorem PossList.possWeights_thenAll {S P : Type} :
    ∀ (ps : PossList S P) (f : S → Node S P),
      (PossList.thenAll ps f).weights = ps.weights
  | .nil, _ => rfl
  | .cons name continuation weight tail, f => by
      simp [PossList.thenAll, PossList.weights,
        PossList.possWeights_thenAll tail f]

theorem PossList.possConts_thenAll {S P : Type} :
    ∀ (ps : PossList S P) (f : S → Node S P),
      (PossList.thenAll ps f).conts
        = ps.conts.map (fun c => fun s => Node.«then» (c s) f)
  | .nil, _ => rfl
  | .cons name continuation weight tail, f => by
      simp [PossList.thenAll, PossList.conts, PossList.possConts_thenAll tail f]

theorem ChoiceList.names_ofChoices {S P T : Type} (l : List (String × T))
    (f : S → T → Node S P) :
    (ChoiceList.ofChoices l f).names = l.map Prod.fst := by
  induction l with
  | nil => rfl
  | cons hd tl ih =>
      rcases hd with ⟨name, c⟩
      simp [ChoiceList.ofChoices, ChoiceList.names, ih]

theorem ChoiceList.conts_ofChoices {S P T : Type} (l : List (String × T))
    (f : S → T → Node S P) :
    (ChoiceList.ofChoices l f).conts = l.map (fun p => fun s => f s p.2) := by
  induction l with
  | nil => rfl
  | cons hd tl ih =>
      rcases hd with ⟨name, c⟩
      simp [ChoiceList.ofChoices, ChoiceList.conts, ih]

theorem Node.isDecision_elim {S P : Type} {n : Node S P}
    (h : n.isDecision = true) :
    ∃ st nm pl cs, n = Node.mk st (Branches.decision nm pl cs) := by
  rcases n with ⟨st, br⟩
  cases br with
  | decision nm pl cs => exact ⟨st, nm, pl, cs, rfl⟩
  | chance nm ps => simp [Node.isDecision] at h
  | pending => simp [Node.isDecision] at h
  | «end» => simp [Node.isDecision] at h

theorem Node.isPending_elim {S P : Type} {n : Node S P}
    (h : n.isPending = true) : ∃ st, n = Node.pending st := by
  rcases n with ⟨st, br⟩
  cases br with
  | pending => exact ⟨st, rfl⟩
  | decision nm pl cs => simp [Node.isPending] at h
  | chance nm ps => simp [Node.isPending] at h
  | «end» => simp [Node.isPending] at h

/-- C1 (counterexample): with zero accumulated choices (possibilities),
`DecisionBuilder::build` (`ChanceBuilder::build`) does not fail — each
returns a Decision (Chance) node whose option list is empty, contradicting
the claim that such a build fails fatally and that a node with an empty
option list is never returned. -/
theorem build_empty_counterexample :
    (DecisionBuilder.new (S := Nat) (T := Nat) ("d") (0 : Nat)).build 0
        (fun s _ => Node.pending s)
      = Node.mk 0 (Branches.decision ("d") 0 ChoiceList.nil)
    ∧ (ChanceBuilder.mk ("c") ([] : List (String × Rat × Nat))).build (0 : Nat)
        (P := Nat) (fun s _ => Node.pending s)
      = Node.mk 0 (Branches.chance ("c") PossList.nil) :=
  ⟨rfl, rfl⟩

/-- C1 (amended): `build` performs no emptiness check: for every state and
callback, a `DecisionBuilder` (`ChanceBuilder`) with zero accumulated choices
(possibilities) returns a Decision (Chance) node whose option list is empty,
carrying the given state, name and player. -/
theorem build_empty_returns_empty_options {S P T : Type} (dname cname : String)
    (player : P) (state : S) (f g : S → T → Node S P) :
    (DecisionBuilder.new dname player).build state f
      = Node.mk state (Branches.decision dname player ChoiceList.nil)
    ∧ (ChanceBuilder.mk cname []).build state g
      = Node.mk state (Branches.chance cname PossList.nil) :=
  ⟨rfl, rfl⟩

/-- C2 (the `Try` impl evaluated at the failing input): `into_result` does
treat `End` as the `Err` case and `Chance`/`Decision`/`Pending` as `Ok`, but
the bodies of `from_ok` and `from_error` are swapped, so the question-mark
desugaring (`Err(e) => return Try::from_error(e)`) panics with "Invalid Ok"
on every `End` node instead of propagating it unchanged; non-End nodes
continue as the `Ok` case. -/
theorem try_end_question_panics {S P : Type} (s : S) :
    (Node.«end» (P := P) s).into_result = Except.error (Node.«end» s)
    ∧ (Node.pending (P := P) s).into_result = Except.ok (Node.pending s)
    ∧ (Node.«end» (P := P) s).question = QuestionResult.panicked ("Invalid Ok")
    ∧ (Node.pending (P := P) s).question = QuestionResult.cont (Node.pending s)
    ∧ Node.from_ok (Node.pending (P := P) s) = Except.error ("Invalid Error") :=
  ⟨rfl, rfl, rfl, rfl, rfl⟩

/-- C3: `then` is associative — `a.then(f).then(g)` equals
`a.then(|s| f(s).then(g))` as nodes (same branch structure, labels, weights,
order, and states under every sequence of resolutions). -/
theorem then_associativity {S P : Type} (a : Node S P) (f g : S → Node S P) :
    Node.«then» (Node.«then» a f) g
      = Node.«then» a (fun s => Node.«then» (f s) g) :=
  Node.then_assoc a f g

/-- C4: `Node::end(s).then(f)` yields the End node carrying the same state
`s`, for every `f` alike — End absorbs all further composition and `f` is
never consulted. -/
theorem end_absorbs_then {S P : Type} (s : S) (f : S → Node S P) :
    Node.«then» (Node.«end» s) f = Node.«end» s := rfl

/-- C5: `Node::pending(s).then(f)` is exactly `f s` — immediate, eager
composition. -/
theorem pending_then_identity {S P : Type} (s : S) (f : S → Node S P) :
    Node.«then» (Node.pending s) f = f s := rfl

/-- C6 (counterexample): for the two-choice Decision step `fTest`, whose
choice continuations end the simulation, `fold` over `[0, 1]` yields a
Decision for item `0` whose first choice resolves to an `End` node — not a
Decision for item `1` — so the order-preservation law does not hold for
every step returning two-choice Decisions. -/
theorem fold_order_counterexample :
    (∀ (s i : Nat), (fTest s i).isDecision = true
      ∧ (fTest s i).player? = some i ∧ (fTest s i).choiceConts.length = 2)
    ∧ (fold 7 [0, 1] fTest).player? = some 0
    ∧ (fold 7 [0, 1] fTest).resolveChoice 0 8 = some (Node.«end» 8)
    ∧ (Node.«end» (P := Nat) 8).isDecision = false :=
  ⟨fun _ _ => ⟨rfl, rfl, rfl⟩, rfl, rfl, rfl⟩

/-- C6 (amended): if `f` always returns a two-choice Decision for the player
of the item it is given, and the choice continuations of those Decisions
return Pending nodes, then `fold(s, [i1, i2], f)` — which starts from the
accumulator `Node::pending(s)` and visits the items in their natural order —
is a two-choice Decision for `i1`'s player, every one of whose continuations
yields a two-choice Decision for `i2`'s player; never the reverse nesting. -/
theorem fold_order_preservation {S I P : Type} (s : S) (i1 i2 : I) (pl : I → P)
    (f : S → I → Node S P)
    (h1 : ∀ (s' : S) (i : I), (f s' i).isDecision = true
      ∧ (f s' i).player? = some (pl i) ∧ (f s' i).choiceConts.length = 2)
    (h2 : ∀ (s' : S) (i : I), ∀ c ∈ (f s' i).choiceConts, ∀ s'' : S,
      (c s'').isPending = true) :
    (fold s [i1, i2] f).isDecision = true
    ∧ (fold s [i1, i2] f).player? = some (pl i1)
    ∧ (fold s [i1, i2] f).choiceConts.length = 2
    ∧ ∀ c ∈ (fold s [i1, i2] f).choiceConts, ∀ s'' : S,
        (c s'').isDecision = true ∧ (c s'').player? = some (pl i2)
          ∧ (c s'').choiceConts.length = 2 := by
  have hfold : fold s [i1, i2] f
      = Node.«then» (f s i1) (fun st => f st i2) := rfl
  obtain ⟨st, nm, pl1, cs, hshape⟩ := Node.isDecision_elim (h1 s i1).1
  have hpl : pl1 = pl i1 := by
    have hp := (h1 s i1).2.1
    rw [hshape] at hp
    simpa [Node.player?] using hp
  have hlen : cs.conts.length = 2 := by
    have hl := (h1 s i1).2.2
    rw [hshape] at hl
    simpa [Node.choiceConts] using hl
  have hthen : Node.«then» (Node.mk st (Branches.decision nm pl1 cs))
        (fun st => f st i2)
      = Node.mk st (Branches.decision nm pl1
          (ChoiceList.thenAll cs (fun st => f st i2))) := rfl
  rw [hfold, hshape, hthen]
  refine ⟨rfl, ?_, ?_, ?_⟩
  · simp [Node.player?, hpl]
  · simp [Node.choiceConts, ChoiceList.choiceConts_thenAll, hlen]
  · intro c hc s''
    simp only [Node.choiceConts] at hc
    rw [ChoiceList.choiceConts_thenAll] at hc
    rcases List.mem_map.1 hc with ⟨c0, hc0, rfl⟩
    show (Node.«then» (c0 s'') (fun st => f st i2)).isDecision = true
      ∧ (Node.«then» (c0 s'') (fun st => f st i2)).player? = some (pl i2)
      ∧ (Node.«then» (c0 s'') (fun st => f st i2)).choiceConts.length = 2
    have hcp : (c0 s'').isPending = true := by
      apply h2 s i1 c0 _ s''
      rw [hshape]
      simpa [Node.choiceConts] using hc0
    obtain ⟨st', hst'⟩ := Node.isPending_elim hcp
    rw [hst']
    rw [show Node.«then» (Node.pending st') (fun st => f st i2) = f st' i2
      from rfl]
    exact h1 st' i2

/-- C6 witness: the amended fold-order law applied to the concrete
pending-returning two-choice step `fPend`, folded over the items `[0, 1]`
from state `7`. -/
theorem fold_order_preservation_witness :
    (∀ (s' i : Nat), (fPend s' i).isDecision = true
      ∧ (fPend s' i).player? = some (id i)
      ∧ (fPend s' i).choiceConts.length = 2)
    ∧ (∀ (s' i : Nat), ∀ c ∈ (fPend s' i).choiceConts, ∀ s'' : Nat,
        (c s'').isPending = true)
    ∧ ((fold 7 [0, 1] fPend).isDecision = true
      ∧ (fold 7 [0, 1] fPend).player? = some (id 0)
      ∧ (fold 7 [0, 1] fPend).choiceConts.length = 2
      ∧ ∀ c ∈ (fold 7 [0, 1] fPend).choiceConts, ∀ s'' : Nat,
          (c s'').isDecision = true ∧ (c s'').player? = some (id 1)
            ∧ (c s'').choiceConts.length = 2) := by
  have h1 : ∀ (s' i : Nat), (fPend s' i).isDecision = true
      ∧ (fPend s' i).player? = some (id i)
      ∧ (fPend s' i).choiceConts.length = 2 := fun s' i => ⟨rfl, rfl, rfl⟩
  have h2 : ∀ (s' i : Nat), ∀ c ∈ (fPend s' i).choiceConts, ∀ s'' : Nat,
      (c s'').isPending = true := by
    intro s' i c hc s''
    simp [fPend, Node.choiceConts, ChoiceList.conts] at hc
    rcases hc with rfl | rfl
    all_goals rfl
  exact ⟨h1, h2, fold_order_preservation 7 0 1 id fPend h1 h2⟩

/-- C7: `then` on a Decision (Chance) node is again a Decision (Chance) with
the same state, name and player, its labels (and weights) unchanged and in
the same order and number, and each continuation `cont` replaced by exactly
`|s| cont(s).then(f)`. -/
theorem then_frame_preservation {S P : Type} (st : S) (nm : String) (pl : P)
    (cs : ChoiceList S P) (ps : PossList S P) (f : S → Node S P) :
    Node.«then» (Node.mk st (Branches.decision nm pl cs)) f
      = Node.mk st (Branches.decision nm pl (ChoiceList.thenAll cs f))
    ∧ (ChoiceList.thenAll cs f).names = cs.names
    ∧ (ChoiceList.thenAll cs f).conts
        = cs.conts.map (fun c => fun s => Node.«then» (c s) f)
    ∧ Node.«then» (Node.mk st (Branches.chance nm ps)) f
      = Node.mk st (Branches.chance nm (PossList.thenAll ps f))
    ∧ (PossList.thenAll ps f).names = ps.names
    ∧ (PossList.thenAll ps f).weights = ps.weights
    ∧ (PossList.thenAll ps f).conts
        = ps.conts.map (fun c => fun s => Node.«then» (c s) f) :=
  ⟨rfl, ChoiceList.choiceNames_thenAll cs f, ChoiceList.choiceConts_thenAll cs f, rfl,
    PossList.possNames_thenAll ps f, PossList.possWeights_thenAll ps f,
    PossList.possConts_thenAll ps f⟩

/-- C8: `indexed_choices` over `n` items followed by `build` yields a
Decision node that stores the very state passed to `build`, keeps the
builder's name and player, has exactly `n` choices labeled by the items'
textual renderings in encounter order, whose continuations invoke the
callback with the 0-based indices `0..n-1` in that order — so resolving
choice `i` invokes the callback with payload `i`. -/
theorem indexed_choices_build_spec {S P A : Type} (nm : String) (pl : P)
    (items : List A) (toStr : A → String) (state : S)
    (f : S → Nat → Node S P) :
    (((DecisionBuilder.new nm pl).indexed_choices items toStr).build state
        f).state = state
    ∧ (((DecisionBuilder.new nm pl).indexed_choices items toStr).build state
        f).isDecision = true
    ∧ (((DecisionBuilder.new nm pl).indexed_choices items toStr).build state
        f).name? = some nm
    ∧ (((DecisionBuilder.new nm pl).indexed_choices items toStr).build state
        f).player? = some pl
    ∧ (((DecisionBuilder.new nm pl).indexed_choices items toStr).build state
        f).choiceNames = items.map toStr
    ∧ (((DecisionBuilder.new nm pl).indexed_choices items toStr).build state
        f).choiceConts
      = (List.range items.length).map (fun i => fun s => f s i)
    ∧ (((DecisionBuilder.new nm pl).indexed_choices items toStr).build state
        f).choiceConts.length = items.length
    ∧ ∀ (i : Fin items.length) (s' : S),
        (((DecisionBuilder.new nm pl).indexed_choices items toStr).build state
          f).resolveChoice i.1 s' = some (f s' i.1) := by
  have hb : ((DecisionBuilder.new nm pl).indexed_choices items toStr).build
        state f
      = Node.mk state (Branches.decision nm pl (ChoiceList.ofChoices
          (((items.map toStr).enum).map (fun p => (p.2, p.1))) f)) := rfl
  have hnames : (((DecisionBuilder.new nm pl).indexed_choices items
        toStr).build state f).choiceNames = items.map toStr := by
    rw [hb]
    simp only [Node.choiceNames]
    rw [ChoiceList.names_ofChoices, List.map_map]
    rw [show (Prod.fst ∘ fun p : Nat × String => (p.2, p.1)) = Prod.snd
      from rfl]
    rw [List.enum_map_snd]
  have hconts : (((DecisionBuilder.new nm pl).indexed_choices items
        toStr).build state f).choiceConts
      = (List.range items.length).map (fun i => fun s => f s i) := by
    rw [hb]
    simp only [Node.choiceConts]
    rw [ChoiceList.conts_ofChoices, List.map_map]
    rw [show ((fun p : String × Nat => fun s => f s p.2)
        ∘ fun p : Nat × String => (p.2, p.1))
      = (fun i : Nat => fun s => f s i) ∘ Prod.fst from rfl]
    rw [← List.map_map, List.enum_map_fst, List.length_map]
  refine ⟨by rw [hb]; rfl, by rw [hb]; rfl, by rw [hb]; rfl, by rw [hb]; rfl,
    hnames, hconts, by rw [hconts]; simp, ?_⟩
  intro i s'
  rw [Node.resolveChoice, hconts]
  rw [List.get?_eq_getElem?, List.getElem?_map, List.getElem?_range i.2]
  rfl

/-- C9 (counterexample): on the state `State::start` builds (no active
pokemon chosen for either player), `pokemon_etb` fails fatally for both
players with the same generic `Option::unwrap` message — a fatal error that
does not identify which player's field was unset — while
`choose_actions`'s per-player step does name the player in its error. -/
theorem missing_active_counterexample :
    Single.State.pokemon_etb startState Single.Player.Player1
      = Except.error ("called `Option::unwrap()` on a `None` value")
    ∧ Single.State.pokemon_etb startState Single.Player.Player2
      = Except.error ("called `Option::unwrap()` on a `None` value")
    ∧ Single.State.choose_action_step startState Single.Player.Player1
      = Except.error ("No active pokemon for Player1 when choosing actions")
    ∧ Single.State.choose_action_step startState Single.Player.Player2
      = Except.error ("No active pokemon for Player2 when choosing actions") :=
  ⟨rfl, rfl, rfl, rfl⟩

/-- C9 (amended): whenever a domain step requires a player's active pokemon
but `active_pokemon_idx` is `None`, the step fails fatally and never
produces a node: the action-selection step's error names the player, while
`pokemon_etb`'s error is the generic `Option::unwrap` message, which does
not identify the player. -/
theorem missing_active_fatal (s : Single.State) (p : Single.Player)
    (h : (s.player p).active_pokemon_idx = none) :
    Single.State.choose_action_step s p
      = Except.error ("No active pokemon for " ++ p.toString
          ++ " when choosing actions")
    ∧ Single.State.pokemon_etb s p
      = Except.error ("called `Option::unwrap()` on a `None` value") := by
  constructor
  · simp [Single.State.choose_action_step, h]
  · simp [Single.State.pokemon_etb, Single.PlayerState.active_pokemon, h]

/-- C9 witness: the amended missing-active-pokemon law applied to the
initial state and Player1. -/
theorem missing_active_fatal_witness :
    (startState.player Single.Player.Player1).active_pokemon_idx = none
    ∧ (Single.State.choose_action_step startState Single.Player.Player1
        = Except.error ("No active pokemon for "
            ++ Single.Player.toString Single.Player.Player1
            ++ " when choosing actions")
      ∧ Single.State.pokemon_etb startState Single.Player.Player1
        = Except.error ("called `Option::unwrap()` on a `None` value")) :=
  ⟨rfl, missing_active_fatal startState Single.Player.Player1 rfl⟩

/-- C10: `Ability` and `Effect` are uninhabited empty enums; hence `Pokemon`
(which stores an `Ability`) admits no value, every `Team` is the empty
collection, both players' teams are empty in every `State` whatsoever (in
particular in every reachable one), and the `EventHandler` implementations
on `Ability` and `Effect` can never be invoked on a receiver value. -/
theorem domain_uninhabited :
    IsEmpty Ability ∧ IsEmpty Effect ∧ IsEmpty Pokemon
    ∧ (∀ t : Team, t = ([] : List Pokemon))
    ∧ ∀ s : Single.State, (s.player Single.Player.Player1).team = []
        ∧ (s.player Single.Player.Player2).team = [] := by
  have hA : IsEmpty Ability := ⟨fun a => nomatch a⟩
  have hP : IsEmpty Pokemon := ⟨fun p => nomatch p.ability⟩
  have hT : ∀ t : Team, t = ([] : List Pokemon) := by
    intro t
    cases t with
    | nil => rfl
    | cons hd tl => exact (hP.false hd).elim
  exact ⟨hA, ⟨fun e => nomatch e⟩, hP, hT, fun s => ⟨hT _, hT _⟩⟩
